import Mathlib

/-!
Shallow embedding of the tray/console utilities of teamy-rust-windows-utils.

The embedding models the Win32/COM calls (FreeConsole, AllocConsole,
AttachConsole, Shell_NotifyIconW, menu APIs) as boolean outcome oracles:
each fallible OS call is represented by a Bool saying whether the call
succeeded, and the Rust control flow around those calls is translated
literally.  Side effects performed by the code are recorded in explicit
event traces so that ordering properties can be stated.
-/

namespace TeamyWindows

/-! ### Log buffer (src/log/buffer_sink.rs) -/

/-- Embeds `BufferSink`: the process-wide log buffer, a growable byte
sequence (`Arc<Mutex<Vec<u8>>>` in the source; bytes are modelled as `Nat`). -/
structure BufferSink where
  buffer : List Nat
deriving DecidableEq, Repr

/-- Bytes of the line `writeln!(writer, "=== Previous Logs ===")` emits. -/
def beginPreviousLogsMarker : List Nat :=
  "=== Previous Logs ===\n".toList.map Char.toNat

/-- Bytes of the line `writeln!(writer, "=== End of Previous Logs ===")` emits. -/
def endPreviousLogsMarker : List Nat :=
  "=== End of Previous Logs ===\n".toList.map Char.toNat

/-- The byte sequence `BufferSink::replay` writes to its writer: the begin
marker line, then the buffer contents verbatim, then the end marker line. -/
def BufferSink.replayOutput (sink : BufferSink) : List Nat :=
  beginPreviousLogsMarker ++ sink.buffer ++ endPreviousLogsMarker

/-- Embeds `BufferSink::replay`: appends the replay output to the writer
and leaves the buffer itself untouched (the source only locks and reads). -/
def BufferSink.replay (sink : BufferSink) (writerOut : List Nat) :
    BufferSink × List Nat :=
  (sink, writerOut ++ sink.replayOutput)

/-- Embeds `impl Write for BufferSink`: `write` appends the given bytes to
the buffer and returns `Ok(buf.len())`. -/
def BufferSink.write (sink : BufferSink) (buf : List Nat) : BufferSink × Nat :=
  ({ buffer := sink.buffer ++ buf }, buf.length)

/-- Embeds `flush` of `impl Write for BufferSink`: does nothing, `Ok(())`. -/
def BufferSink.flush (sink : BufferSink) : BufferSink × Unit :=
  (sink, ())

/-! ### Console state machine (examples/tray-console-demo/src/window_proc.rs) -/

/-- Embeds the `ConsoleMode` enumeration. -/
inductive ConsoleMode where
  | Detached
  | Inherited
  | Owned
deriving DecidableEq, Repr

/-- Embeds `TrayConsoleConfig`. -/
structure TrayConsoleConfig where
  inherited_console_available : Bool
  log_buffer : BufferSink
deriving DecidableEq, Repr

/-- Embeds `TrayConsoleState`. -/
structure TrayConsoleState where
  mode : ConsoleMode
  inherited_console_available : Bool
  log_buffer : BufferSink
deriving DecidableEq, Repr

/-- Embeds `TrayConsoleState::new`. -/
def TrayConsoleState.new (config : TrayConsoleConfig) : TrayConsoleState :=
  { mode :=
      if config.inherited_console_available then ConsoleMode.Inherited
      else ConsoleMode.Detached
    inherited_console_available := config.inherited_console_available
    log_buffer := config.log_buffer }

/-- Embeds `TrayConsoleState::can_show_logs`. -/
def TrayConsoleState.can_show_logs (s : TrayConsoleState) : Bool :=
  s.mode != ConsoleMode.Owned

/-- Embeds `TrayConsoleState::can_hide_logs`. -/
def TrayConsoleState.can_hide_logs (s : TrayConsoleState) : Bool :=
  s.mode == ConsoleMode.Owned

/-- Success or failure of each OS console call that `show_logs` or
`hide_logs` can make: `console_detach`, `console_create`, the buffer replay
write to stdout, and `console_attach(ATTACH_PARENT_PROCESS)`. -/
structure OsOutcome where
  detachOk : Bool
  createOk : Bool
  replayOk : Bool
  attachOk : Bool
deriving DecidableEq, Repr

/-- The outcome in which every OS console call succeeds. -/
def OsOutcome.allOk : OsOutcome :=
  { detachOk := true, createOk := true, replayOk := true, attachOk := true }

/-- Side effects performed by the console state machine, in order:
OS calls attempted, bytes written to the (new) console stdout, and
assignments to the `mode` field. -/
inductive ConsoleEvent where
  | detachCall
  | createCall
  | attachCall
  | writeOut (bytes : List Nat)
  | writeFail
  | setMode (m : ConsoleMode)
deriving DecidableEq, Repr

/-- Embeds `TrayConsoleState::show_logs`.  Returns the `Result`, the state
after the call, and the trace of side effects, mirroring the source line by
line: early `Ok` when `!can_show_logs`, detach first when `Inherited`,
then allocate, then replay the buffer, and only then `mode = Owned`. -/
def TrayConsoleState.show_logs (s : TrayConsoleState) (os : OsOutcome) :
    Except String Unit × TrayConsoleState × List ConsoleEvent :=
  if ! s.can_show_logs then
    (Except.ok (), s, [])
  else if s.mode = ConsoleMode.Inherited ∧ os.detachOk = false then
    (Except.error "Failed to detach from inherited console", s,
      [ConsoleEvent.detachCall])
  else
    let evs := if s.mode = ConsoleMode.Inherited then [ConsoleEvent.detachCall] else []
    if os.createOk = false then
      (Except.error "Failed to allocate dedicated console", s,
        evs ++ [ConsoleEvent.createCall])
    else if os.replayOk = false then
      (Except.error "Failed to replay buffered logs into new console", s,
        evs ++ [ConsoleEvent.createCall, ConsoleEvent.writeFail])
    else
      (Except.ok (), { s with mode := ConsoleMode.Owned },
        evs ++ [ConsoleEvent.createCall,
          ConsoleEvent.writeOut s.log_buffer.replayOutput,
          ConsoleEvent.setMode ConsoleMode.Owned])

/-- Embeds `TrayConsoleState::hide_logs`: early `Ok` when `!can_hide_logs`,
detach from the owned console, then reattach to the parent console when
`inherited_console_available` (mode `Inherited`), else mode `Detached`. -/
def TrayConsoleState.hide_logs (s : TrayConsoleState) (os : OsOutcome) :
    Except String Unit × TrayConsoleState × List ConsoleEvent :=
  if ! s.can_hide_logs then
    (Except.ok (), s, [])
  else if os.detachOk = false then
    (Except.error "Failed to detach from dedicated console", s,
      [ConsoleEvent.detachCall])
  else if s.inherited_console_available then
    if os.attachOk = false then
      (Except.error "Failed to reattach to parent console", s,
        [ConsoleEvent.detachCall, ConsoleEvent.attachCall])
    else
      (Except.ok (), { s with mode := ConsoleMode.Inherited },
        [ConsoleEvent.detachCall, ConsoleEvent.attachCall,
          ConsoleEvent.setMode ConsoleMode.Inherited])
  else
    (Except.ok (), { s with mode := ConsoleMode.Detached },
      [ConsoleEvent.detachCall, ConsoleEvent.setMode ConsoleMode.Detached])

/-- A user-triggered operation on the tray console state machine. -/
inductive TrayOp where
  | showLogs
  | hideLogs
deriving DecidableEq, Repr

/-- One operation applied with every OS console call succeeding. -/
def TrayConsoleState.step (s : TrayConsoleState) (op : TrayOp) :
    TrayConsoleState × List ConsoleEvent :=
  match op with
  | TrayOp.showLogs => ((s.show_logs OsOutcome.allOk).2.1, (s.show_logs OsOutcome.allOk).2.2)
  | TrayOp.hideLogs => ((s.hide_logs OsOutcome.allOk).2.1, (s.hide_logs OsOutcome.allOk).2.2)

/-- A sequence of operations applied with every OS call succeeding,
returning the final state and the concatenated side-effect trace. -/
def TrayConsoleState.run (s : TrayConsoleState) : List TrayOp → TrayConsoleState × List ConsoleEvent
  | [] => (s, [])
  | op :: ops =>
    ((((s.step op).1).run ops).1, (s.step op).2 ++ (((s.step op).1).run ops).2)

/-- Fold step for checking detach spacing in a trace.  The state is
`some b` where `b` records whether a detach has happened since the last
console allocation or attach; `none` marks a violation (two detaches with
no intervening allocate/attach). -/
def detachFlagStep (flag : Option Bool) (e : ConsoleEvent) : Option Bool :=
  match flag, e with
  | none, _ => none
  | some b, ConsoleEvent.detachCall => if b then none else some true
  | some _, ConsoleEvent.createCall => some false
  | some _, ConsoleEvent.attachCall => some false
  | some b, _ => some b

/-- A trace never detaches twice in a row without an intervening console
allocation or attach call. -/
def detachWellSpaced (events : List ConsoleEvent) : Bool :=
  (events.foldl detachFlagStep (some false)).isSome

/-! ### Tray icon lifecycle (src/tray/add.rs, src/tray/delete.rs) -/

/-- Embeds `WM_USER` (0x0400) and `WM_TRAYICON = WM_USER + 1` from
`src/tray/add.rs`. -/
def WM_USER : Nat := 0x0400

/-- Embeds `const WM_TRAYICON: u32 = WM_USER + 1` from `src/tray/add.rs`. -/
def WM_TRAYICON : Nat := WM_USER + 1

/-- Embeds `pub const ID_TRAYICON: u32 = 1` from `src/tray/add.rs`. -/
def ID_TRAYICON : Nat := 1

/-- Modelled from the spec: `TRAY_ICON_ID`, the fixed numeric tray icon ID
used by `delete_tray_icon`.  The `tray` module file that defines this
constant is not among the sources; the spec says the icon is registered
and unregistered under one fixed numeric ID, so it equals `ID_TRAYICON`. -/
def TRAY_ICON_ID : Nat := ID_TRAYICON

/-- Modelled from the spec: `WM_USER_TRAY_CALLBACK`, the tray callback
message compared against in `window_proc`.  The `tray` module file that
defines it is not among the sources; registration in `src/tray/add.rs`
uses `uCallbackMessage: WM_TRAYICON`, so it equals `WM_TRAYICON`. -/
def WM_USER_TRAY_CALLBACK : Nat := WM_TRAYICON

/-- Embeds `MinimalTrayState` from `src/tray/add.rs`: the process-wide
copy of the last successful registration (window handle bits, icon handle
bits, and the 128-element `szTip` UTF-16 buffer). -/
structure MinimalTrayState where
  hwnd_bits : Int
  hicon_bits : Int
  tip : List Nat
deriving DecidableEq, Repr

/-- The fields of the `NOTIFYICONDATAW` registration call issued through
`Shell_NotifyIconW(NIM_ADD, ...)`. -/
structure NotifyIconRegistration where
  hWnd : Int
  uID : Nat
  uCallbackMessage : Nat
  hIcon : Int
  szTip : List Nat
deriving DecidableEq, Repr

/-- The `szTip` buffer built by `add_tray_icon`: starts as `[0; 128]` and
the tooltip UTF-16 units are copied over its first `tooltip.len()` slots. -/
def padTip (tooltip : List Nat) : List Nat :=
  tooltip ++ List.replicate (128 - tooltip.length) 0

/-- One invocation of `add_tray_icon`: its arguments plus whether the
`Shell_NotifyIconW(NIM_ADD, ...)` call succeeds. -/
structure AddEvent where
  hwnd : Int
  hicon : Int
  tooltip : List Nat
  osOk : Bool
deriving DecidableEq, Repr

/-- Embeds `add_tray_icon`: builds the `NOTIFYICONDATAW`, issues the
NIM_ADD call, and only after success stores `MinimalTrayState` into the
process-wide `TRAY_STATE`; on failure the `?` returns early and the stored
state is unchanged. -/
def add_tray_icon (st : Option MinimalTrayState) (e : AddEvent) :
    Except String NotifyIconRegistration × Option MinimalTrayState :=
  let nid : NotifyIconRegistration :=
    { hWnd := e.hwnd, uID := ID_TRAYICON, uCallbackMessage := WM_TRAYICON,
      hIcon := e.hicon, szTip := padTip e.tooltip }
  if e.osOk then
    (Except.ok nid, some { hwnd_bits := e.hwnd, hicon_bits := e.hicon, tip := nid.szTip })
  else
    (Except.error "Shell_NotifyIconW NIM_ADD failed", st)

/-- The `TRAY_STATE` contents after a sequence of `add_tray_icon` calls. -/
def runAdds (st : Option MinimalTrayState) (events : List AddEvent) :
    Option MinimalTrayState :=
  events.foldl (fun acc e => (add_tray_icon acc e).2) st

/-- The most recent `AddEvent` whose NIM_ADD call succeeded. -/
def lastSuccessfulAdd (events : List AddEvent) : Option AddEvent :=
  (events.filter (fun e => e.osOk)).getLast?

/-- Embeds `re_add_tray_icon`: errors when `TRAY_STATE` holds no
descriptor; otherwise issues a NIM_ADD registration rebuilt from the saved
state (same fixed ID and callback message, saved icon bits and tip), and
returns the outcome of that call. -/
def re_add_tray_icon (st : Option MinimalTrayState) (osOk : Bool) :
    Option NotifyIconRegistration × Except String Unit :=
  match st with
  | none => (none, Except.error "No tray state available to re-add icon")
  | some s =>
    let nid : NotifyIconRegistration :=
      { hWnd := s.hwnd_bits, uID := ID_TRAYICON, uCallbackMessage := WM_TRAYICON,
        hIcon := s.hicon_bits, szTip := s.tip }
    (some nid, if osOk then Except.ok () else Except.error "Shell_NotifyIconW NIM_ADD failed")

/-- Shell-side semantics of `Shell_NotifyIconW(NIM_DELETE, ...)`: the call
reports success exactly when an icon with the given ID is currently
registered, and afterwards no icon is registered. -/
def shellNotifyIconDelete (present : Bool) : Bool × Bool :=
  (present, false)

/-- Embeds `delete_tray_icon` from `src/tray/delete.rs`: builds the
`NOTIFYICONDATAW` with `uID: TRAY_ICON_ID`, issues the NIM_DELETE call,
and propagates its result through `.ok()?` with no handling of an
already-removed icon.  `present` says whether the icon is still
registered; the second component is the registration state afterwards. -/
def delete_tray_icon (present : Bool) : Except String Unit × Bool :=
  let callResult := shellNotifyIconDelete present
  (if callResult.1 then Except.ok ()
   else Except.error "Shell_NotifyIconW NIM_DELETE failed", callResult.2)

/-! ### Drive letter pattern (src/storage/drive_letter_pattern.rs) -/

/-- Embeds Rust `char::is_whitespace` (the Unicode `White_Space` property). -/
def rust_is_whitespace (c : Char) : Bool :=
  (0x09 ≤ c.toNat && c.toNat ≤ 0x0D) || c.toNat = 0x20 || c.toNat = 0x85 ||
  c.toNat = 0xA0 || c.toNat = 0x1680 || (0x2000 ≤ c.toNat && c.toNat ≤ 0x200A) ||
  c.toNat = 0x2028 || c.toNat = 0x2029 || c.toNat = 0x202F || c.toNat = 0x205F ||
  c.toNat = 0x3000

/-- Embeds Rust `str::trim`: removes leading and trailing whitespace. -/
def rust_trim (s : List Char) : List Char :=
  ((s.dropWhile rust_is_whitespace).reverse.dropWhile rust_is_whitespace).reverse

/-- Embeds Rust `char::is_ascii_alphabetic`. -/
def is_ascii_alphabetic (c : Char) : Bool :=
  (0x41 ≤ c.toNat && c.toNat ≤ 0x5A) || (0x61 ≤ c.toNat && c.toNat ≤ 0x7A)

/-- Embeds Rust `char::to_ascii_uppercase`. -/
def to_ascii_uppercase (c : Char) : Char :=
  if 0x61 ≤ c.toNat && c.toNat ≤ 0x7A then Char.ofNat (c.toNat - 32) else c

/-- The `skippable` test of `into_drive_letters`: whitespace, comma or
semicolon separators are skipped. -/
def skippable (c : Char) : Bool :=
  rust_is_whitespace c || c == ',' || c == ';'

/-- Embeds `DriveLetterPattern` (a newtype over `String`). -/
structure DriveLetterPattern where
  text : List Char
deriving DecidableEq, Repr

/-- The character loop of `into_drive_letters`: skip separators, error on
the first non-ASCII-alphabetic character, collect uppercased letters. -/
def drive_letters_loop : List Char → Except String (List Char)
  | [] => Except.ok []
  | c :: rest =>
    if skippable c then drive_letters_loop rest
    else if is_ascii_alphabetic c then
      match drive_letters_loop rest with
      | Except.ok l => Except.ok (to_ascii_uppercase c :: l)
      | Except.error e => Except.error e
    else Except.error "Invalid drive letter character"

/-- Embeds `DriveLetterPattern::into_drive_letters`.  `drives_oracle`
stands for `get_available_drives()`, an OS query taken on the `"*"`
branch only.  Otherwise the trimmed input is scanned by the loop and an
empty collection is an error. -/
def DriveLetterPattern.into_drive_letters (p : DriveLetterPattern)
    (drives_oracle : Except String (List Char)) : Except String (List Char) :=
  let input := rust_trim p.text
  if input = ['*'] then drives_oracle
  else
    match drive_letters_loop input with
    | Except.error e => Except.error e
    | Except.ok rtn =>
      if rtn = [] then Except.error "No drive letters found" else Except.ok rtn

/-! ### Shell context menu (src/shell/context_menu.rs) -/

/-- One native menu item as reported by the OS: whether
`GetMenuItemInfoW` succeeds for it, its separator flag, the label text in
the string buffer, its command ID, the results of the ANSI and Unicode
`GetCommandString` queries (`none` when the call fails), and its submenu
items. -/
inductive MenuItem where
  | mk (infoOk : Bool) (isSeparator : Bool) (label : String) (wID : Nat)
       (verbA : Option String) (verbW : Option String) (sub : List MenuItem)

def MenuItem.infoOk : MenuItem → Bool
  | MenuItem.mk b _ _ _ _ _ _ => b

def MenuItem.isSeparator : MenuItem → Bool
  | MenuItem.mk _ b _ _ _ _ _ => b

def MenuItem.label : MenuItem → String
  | MenuItem.mk _ _ l _ _ _ _ => l

def MenuItem.wID : MenuItem → Nat
  | MenuItem.mk _ _ _ i _ _ _ => i

def MenuItem.verbA : MenuItem → Option String
  | MenuItem.mk _ _ _ _ v _ _ => v

def MenuItem.verbW : MenuItem → Option String
  | MenuItem.mk _ _ _ _ _ v _ => v

def MenuItem.sub : MenuItem → List MenuItem
  | MenuItem.mk _ _ _ _ _ _ s => s

/-- Embeds `ContextMenuEntry`. -/
inductive ContextMenuEntry where
  | mk (id : Nat) (label : String) (verb : String)
       (sub_items : List ContextMenuEntry) (is_separator : Bool)

def ContextMenuEntry.id : ContextMenuEntry → Nat
  | ContextMenuEntry.mk i _ _ _ _ => i

def ContextMenuEntry.label : ContextMenuEntry → String
  | ContextMenuEntry.mk _ l _ _ _ => l

def ContextMenuEntry.verb : ContextMenuEntry → String
  | ContextMenuEntry.mk _ _ v _ _ => v

def ContextMenuEntry.sub_items : ContextMenuEntry → List ContextMenuEntry
  | ContextMenuEntry.mk _ _ _ s _ => s

def ContextMenuEntry.is_separator : ContextMenuEntry → Bool
  | ContextMenuEntry.mk _ _ _ _ b => b

/-- Embeds `get_verb`: IDs outside `1..=0x7FFF` give `""`; otherwise the
ANSI `GetCommandString` result is used when that call succeeds, then the
Unicode one, then `String::new()`. -/
def get_verb (wID : Nat) (verbA verbW : Option String) : String :=
  if wID < 1 ∨ 0x7FFF < wID then ""
  else
    match verbA with
    | some v => v
    | none =>
      match verbW with
      | some v => v
      | none => ""

/-- The entry `walk_menu` pushes for a separator item: id 0, the fixed
sixteen-dash placeholder label, empty verb, no children. -/
def separatorEntry : ContextMenuEntry :=
  ContextMenuEntry.mk 0 "----------------" "" [] true

/-- Embeds `walk_menu`: items whose `GetMenuItemInfoW` fails are skipped;
separator items produce `separatorEntry`; other items carry their label,
verb and recursively walked submenu. -/
def walk_menu : List MenuItem → List ContextMenuEntry
  | [] => []
  | MenuItem.mk infoOk isSep label wID verbA verbW sub :: rest =>
    if infoOk then
      if isSep then
        separatorEntry :: walk_menu rest
      else
        ContextMenuEntry.mk wID label (get_verb wID verbA verbW) (walk_menu sub) false
          :: walk_menu rest
    else
      walk_menu rest

/-- Success or failure of each OS step of `get_context_menu_entries`, plus
the menu snapshot the shell reports. -/
structure ShellOracle where
  canonicalizeOk : Bool
  comInitOk : Bool
  parseOk : Bool
  pidlNull : Bool
  bindOk : Bool
  uiObjectOk : Bool
  createMenuOk : Bool
  queryOk : Bool
  destroyOk : Bool
  menu : List MenuItem

/-- Embeds `get_context_menu_entries`: each OS step propagates its error
through `?`, a null PIDL is `bail!`, the populated menu is walked, and a
failing `DestroyMenu` still discards the entries through `?`. -/
def get_context_menu_entries (os : ShellOracle) :
    Except String (List ContextMenuEntry) :=
  if os.canonicalizeOk = false then Except.error "unc_canonicalize failed"
  else if os.comInitOk = false then Except.error "ComGuard::new failed"
  else if os.parseOk = false then Except.error "SHParseDisplayName failed"
  else if os.pidlNull then Except.error "Failed to get PIDL for path"
  else if os.bindOk = false then Except.error "SHBindToParent failed"
  else if os.uiObjectOk = false then Except.error "GetUIObjectOf failed"
  else if os.createMenuOk = false then Except.error "CreatePopupMenu failed"
  else if os.queryOk = false then Except.error "QueryContextMenu failed"
  else if os.destroyOk = false then Except.error "DestroyMenu failed"
  else Except.ok (walk_menu os.menu)

/-! ### Window procedure (examples/tray-console-demo/src/window_proc.rs) -/

/-- Embeds the Win32 message constants used by `window_proc`. -/
def WM_CREATE : Nat := 0x0001

def WM_DESTROY : Nat := 0x0002

def WM_CLOSE : Nat := 0x0010

def WM_CONTEXTMENU : Nat := 0x007B

def WM_LBUTTONDBLCLK : Nat := 0x0203

def WM_RBUTTONUP : Nat := 0x0205

/-- Embeds the menu command constants of `window_proc.rs`. -/
def CMD_SHOW_LOGS : Nat := 0x1000

def CMD_HIDE_LOGS : Nat := 0x1001

def CMD_EXIT_APP : Nat := 0x1002

def CMD_AHOY : Nat := 0x1003

/-- Outcomes of the OS calls `window_proc` and `show_context_menu` make:
the runtime-registered TaskbarCreated message number, the console call
outcomes, popup menu creation, the five `AppendMenuW` results, the
`TrackPopupMenu` selection, menu destruction, tray deletion and tray
re-registration outcomes, and the `DefWindowProcW` result. -/
structure WindowOs where
  taskbarCreatedMsg : Nat
  consoleOs : OsOutcome
  menuCreateOk : Bool
  appendOks : List Bool
  menuSelection : Nat
  menuDestroyOk : Bool
  deleteTrayOk : Bool
  reAddOk : Bool
  defWindowProcResult : Int
deriving Repr

/-- Result of one `window_proc` invocation: the `LRESULT` returned to the
OS, the per-window user-data slot afterwards, the `error!` log lines
emitted, and whether a close request or quit message was posted. -/
structure WpResult where
  lresult : Int
  slot : Option TrayConsoleState
  errors : List String
  closePosted : Bool
  quitPosted : Bool
deriving Repr

/-- Embeds `TrayConsoleState::show_context_menu`: a failed
`CreatePopupMenu` logs and returns early; `AppendMenuW` failures are
logged and ignored; the tracked selection drives `show_logs`,
`hide_logs`, the Ahoy log line, or posting `WM_CLOSE`; every error is
logged, none is returned. -/
def TrayConsoleState.show_context_menu (st : TrayConsoleState) (os : WindowOs) :
    TrayConsoleState × List String × Bool :=
  if os.menuCreateOk = false then
    (st, ["Failed to create context menu"], false)
  else
    let appendErrs :=
      (os.appendOks.filter (fun ok => ok = false)).map
        (fun _ => "Failed to populate context menu")
    let destroyErrs :=
      if os.menuDestroyOk then [] else ["Failed to destroy context menu"]
    let base := appendErrs ++ destroyErrs
    if os.menuSelection = CMD_SHOW_LOGS then
      match st.show_logs os.consoleOs with
      | (Except.ok _, s2, _) => (s2, base, false)
      | (Except.error e, s2, _) => (s2, base ++ ["Failed to show logs: " ++ e], false)
    else if os.menuSelection = CMD_HIDE_LOGS then
      match st.hide_logs os.consoleOs with
      | (Except.ok _, s2, _) => (s2, base, false)
      | (Except.error e, s2, _) => (s2, base ++ ["Failed to hide logs: " ++ e], false)
    else if os.menuSelection = CMD_AHOY then
      (st, base, false)
    else if os.menuSelection = CMD_EXIT_APP then
      (st, base, true)
    else
      (st, base, false)

/-- Embeds `window_proc`.  `config` is the `CONFIG` once-cell contents,
`slot` the `GWLP_USERDATA` per-window state, `lparamLow` the truncated
`lparam` sub-code of the tray callback.  The arms follow the source match
in order; every handler failure becomes a logged string and the returned
`LRESULT` is produced on every path. -/
def window_proc (config : Option TrayConsoleConfig) (os : WindowOs)
    (message : Nat) (lparamLow : Nat) (slot : Option TrayConsoleState) : WpResult :=
  if message = WM_CREATE then
    match config with
    | some cfg =>
      { lresult := 0, slot := some (TrayConsoleState.new cfg), errors := [],
        closePosted := false, quitPosted := false }
    | none =>
      { lresult := -1, slot := slot,
        errors := ["Tray console configuration missing before window creation"],
        closePosted := false, quitPosted := false }
  else if message = WM_USER_TRAY_CALLBACK then
    if lparamLow = WM_RBUTTONUP ∨ lparamLow = WM_CONTEXTMENU then
      match slot with
      | none =>
        { lresult := 0, slot := none, errors := [],
          closePosted := false, quitPosted := false }
      | some st =>
        match st.show_context_menu os with
        | (s2, errs, closed) =>
          { lresult := 0, slot := some s2, errors := errs,
            closePosted := closed, quitPosted := false }
    else if lparamLow = WM_LBUTTONDBLCLK then
      match slot with
      | none =>
        { lresult := 0, slot := none, errors := [],
          closePosted := false, quitPosted := false }
      | some st =>
        match st.show_logs os.consoleOs with
        | (Except.ok _, s2, _) =>
          { lresult := 0, slot := some s2, errors := [],
            closePosted := false, quitPosted := false }
        | (Except.error e, s2, _) =>
          { lresult := 0, slot := some s2,
            errors := ["Failed to show logs via double-click: " ++ e],
            closePosted := false, quitPosted := false }
    else
      { lresult := 0, slot := slot, errors := [],
        closePosted := false, quitPosted := false }
  else if message = os.taskbarCreatedMsg then
    if os.reAddOk then
      { lresult := 0, slot := slot, errors := [],
        closePosted := false, quitPosted := false }
    else
      { lresult := 0, slot := slot,
        errors := ["Failed to re-add tray icon after Explorer restart"],
        closePosted := false, quitPosted := false }
  else if message = WM_CLOSE then
    { lresult := 0, slot := slot, errors := [],
      closePosted := false, quitPosted := false }
  else if message = WM_DESTROY then
    { lresult := 0, slot := none,
      errors := if os.deleteTrayOk then [] else ["Failed to delete tray icon"],
      closePosted := false, quitPosted := true }
  else
    { lresult := os.defWindowProcResult, slot := slot, errors := [],
      closePosted := false, quitPosted := false }

/-! ### Helper lemmas for the console state machine -/

/-- One fully-successful operation preserves the detach-spacing flag
invariant: the flag stays defined, and it is raised only when the state
is `Detached`. -/
lemma step_flag (s : TrayConsoleState) (op : TrayOp) (b : Bool)
    (hinv : b = true → s.mode = ConsoleMode.Detached) :
    ∃ b2 : Bool, ((s.step op).2).foldl detachFlagStep (some b) = some b2 ∧
      (b2 = true → (s.step op).1.mode = ConsoleMode.Detached) := by
  rcases s with ⟨m, a, lb⟩
  cases op <;> cases m <;> cases a <;> cases b
  case showLogs.Detached.false.false => exact ⟨false, rfl, by simp⟩
  case showLogs.Detached.false.true => exact ⟨false, rfl, by simp⟩
  case showLogs.Detached.true.false => exact ⟨false, rfl, by simp⟩
  case showLogs.Detached.true.true => exact ⟨false, rfl, by simp⟩
  case showLogs.Inherited.false.false => exact ⟨false, rfl, by simp⟩
  case showLogs.Inherited.false.true => exact absurd (hinv rfl) (by simp)
  case showLogs.Inherited.true.false => exact ⟨false, rfl, by simp⟩
  case showLogs.Inherited.true.true => exact absurd (hinv rfl) (by simp)
  case showLogs.Owned.false.false => exact ⟨false, rfl, by simp⟩
  case showLogs.Owned.false.true => exact absurd (hinv rfl) (by simp)
  case showLogs.Owned.true.false => exact ⟨false, rfl, by simp⟩
  case showLogs.Owned.true.true => exact absurd (hinv rfl) (by simp)
  case hideLogs.Detached.false.false => exact ⟨false, rfl, by simp⟩
  case hideLogs.Detached.false.true => exact ⟨true, rfl, fun _ => rfl⟩
  case hideLogs.Detached.true.false => exact ⟨false, rfl, by simp⟩
  case hideLogs.Detached.true.true => exact ⟨true, rfl, fun _ => rfl⟩
  case hideLogs.Inherited.false.false => exact ⟨false, rfl, by simp⟩
  case hideLogs.Inherited.false.true => exact absurd (hinv rfl) (by simp)
  case hideLogs.Inherited.true.false => exact ⟨false, rfl, by simp⟩
  case hideLogs.Inherited.true.true => exact absurd (hinv rfl) (by simp)
  case hideLogs.Owned.false.false => exact ⟨true, rfl, fun _ => rfl⟩
  case hideLogs.Owned.false.true => exact absurd (hinv rfl) (by simp)
  case hideLogs.Owned.true.false => exact ⟨false, rfl, by simp⟩
  case hideLogs.Owned.true.true => exact absurd (hinv rfl) (by simp)

/-- Along any fully-successful run, the detach-spacing fold stays defined
and its flag implies the final mode is `Detached`. -/
lemma run_flag (ops : List TrayOp) : ∀ (s : TrayConsoleState) (b : Bool),
    (b = true → s.mode = ConsoleMode.Detached) →
    ∃ b2 : Bool, ((s.run ops).2).foldl detachFlagStep (some b) = some b2 ∧
      (b2 = true → (s.run ops).1.mode = ConsoleMode.Detached) := by
  induction ops with
  | nil => exact fun s b hinv => ⟨b, rfl, hinv⟩
  | cons op ops ih =>
    intro s b hinv
    obtain ⟨b1, h1, hinv1⟩ := step_flag s op b hinv
    obtain ⟨b2, h2, hinv2⟩ := ih (s.step op).1 b1 hinv1
    refine ⟨b2, ?_, hinv2⟩
    have hsplit : (s.run (op :: ops)).2 = (s.step op).2 ++ (((s.step op).1).run ops).2 := rfl
    rw [hsplit, List.foldl_append, h1, h2]

/-! ### Claim theorems -/

/-- C1: `show_logs` while `Owned` and `hide_logs` while not `Owned` both
return success with the state unchanged and an empty side-effect trace,
whatever the OS call outcomes; and along every fully-successful sequence
of `show_logs`/`hide_logs` operations the emitted trace never contains
two detach calls without an intervening console allocation or attach
call (so the machine never enters `Owned` from `Owned` and never
detaches twice in a row without an intervening opposite call). -/
theorem tray_console_reentrancy (avail avail2 avail3 : Bool)
    (buf buf2 buf3 : BufferSink) (os : OsOutcome)
    (s : TrayConsoleState) (ops : List TrayOp) :
    (TrayConsoleState.mk ConsoleMode.Owned avail buf).show_logs os =
      (Except.ok (), TrayConsoleState.mk ConsoleMode.Owned avail buf, []) ∧
    (TrayConsoleState.mk ConsoleMode.Detached avail2 buf2).hide_logs os =
      (Except.ok (), TrayConsoleState.mk ConsoleMode.Detached avail2 buf2, []) ∧
    (TrayConsoleState.mk ConsoleMode.Inherited avail3 buf3).hide_logs os =
      (Except.ok (), TrayConsoleState.mk ConsoleMode.Inherited avail3 buf3, []) ∧
    detachWellSpaced (s.run ops).2 = true := by
  refine ⟨rfl, rfl, rfl, ?_⟩
  obtain ⟨b2, h, _⟩ := run_flag ops s false (by simp)
  unfold detachWellSpaced
  rw [h]
  rfl

/-- C2: starting from a freshly constructed state, the round trip
`hide_logs` (a no-op there), then `show_logs`, then `hide_logs`, with all
OS calls succeeding, succeeds at every step and returns the mode to
`Inherited` when `inherited_console_available` was true at construction
and to `Detached` otherwise. -/
theorem tray_console_round_trip (avail : Bool) (buf : BufferSink) :
    ((TrayConsoleState.new ⟨avail, buf⟩).hide_logs OsOutcome.allOk).1 = Except.ok () ∧
    ((TrayConsoleState.new ⟨avail, buf⟩).hide_logs OsOutcome.allOk).2.1 =
      TrayConsoleState.new ⟨avail, buf⟩ ∧
    ((TrayConsoleState.new ⟨avail, buf⟩).hide_logs OsOutcome.allOk).2.2 = [] ∧
    (((((TrayConsoleState.new ⟨avail, buf⟩).hide_logs OsOutcome.allOk).2.1).show_logs
        OsOutcome.allOk).1 = Except.ok ()) ∧
    (((((((TrayConsoleState.new ⟨avail, buf⟩).hide_logs OsOutcome.allOk).2.1).show_logs
        OsOutcome.allOk).2.1).hide_logs OsOutcome.allOk).1 = Except.ok ()) ∧
    (((((((TrayConsoleState.new ⟨avail, buf⟩).hide_logs OsOutcome.allOk).2.1).show_logs
        OsOutcome.allOk).2.1).hide_logs OsOutcome.allOk).2.1.mode =
      (if avail then ConsoleMode.Inherited else ConsoleMode.Detached)) := by
  cases avail <;> exact ⟨rfl, rfl, rfl, rfl, rfl, rfl⟩

/-- C5: whenever `show_logs` succeeds from a state where it applies
(mode is not `Owned`), the side-effect trace is exactly an optional
detach, then the console allocation, then one stdout write of the whole
log buffer verbatim between the begin and end previous-logs markers, and
only then the assignment of mode `Owned`; the final mode is `Owned`. -/
theorem show_logs_replays_buffer (s : TrayConsoleState) (os : OsOutcome)
    (happl : s.mode ≠ ConsoleMode.Owned)
    (hok : (s.show_logs os).1 = Except.ok ()) :
    (s.show_logs os).2.1.mode = ConsoleMode.Owned ∧
    (s.show_logs os).2.2 =
      (if s.mode = ConsoleMode.Inherited then [ConsoleEvent.detachCall] else []) ++
        [ConsoleEvent.createCall,
         ConsoleEvent.writeOut
           (beginPreviousLogsMarker ++ s.log_buffer.buffer ++ endPreviousLogsMarker),
         ConsoleEvent.setMode ConsoleMode.Owned] := by
  have hshow : s.can_show_logs = true := by
    simp [TrayConsoleState.can_show_logs, happl]
  unfold TrayConsoleState.show_logs at hok ⊢
  rw [hshow] at hok ⊢
  simp only [Bool.not_true, Bool.false_eq_true, if_false] at hok ⊢
  by_cases h2 : s.mode = ConsoleMode.Inherited ∧ os.detachOk = false
  · rw [if_pos h2] at hok
    exact absurd hok (by simp)
  · rw [if_neg h2] at hok ⊢
    by_cases h3 : os.createOk = false
    · rw [if_pos h3] at hok
      exact absurd hok (by simp)
    · rw [if_neg h3] at hok ⊢
      by_cases h4 : os.replayOk = false
      · rw [if_pos h4] at hok
        exact absurd hok (by simp)
      · rw [if_neg h4]
        exact ⟨rfl, by simp [BufferSink.replayOutput]⟩

/-- Sample state used by witness theorems: detached, no inherited
console, three bytes already buffered. -/
def sampleDetachedState : TrayConsoleState :=
  { mode := ConsoleMode.Detached, inherited_console_available := false,
    log_buffer := { buffer := [1, 2, 3] } }

/-- Witness for C5 at a concrete detached state with buffer `[1, 2, 3]`
and all OS calls succeeding. -/
theorem show_logs_replays_buffer_witness :
    sampleDetachedState.mode ≠ ConsoleMode.Owned ∧
    (sampleDetachedState.show_logs OsOutcome.allOk).1 = Except.ok () ∧
    ((sampleDetachedState.show_logs OsOutcome.allOk).2.1.mode = ConsoleMode.Owned ∧
     (sampleDetachedState.show_logs OsOutcome.allOk).2.2 =
       (if sampleDetachedState.mode = ConsoleMode.Inherited
        then [ConsoleEvent.detachCall] else []) ++
         [ConsoleEvent.createCall,
          ConsoleEvent.writeOut
            (beginPreviousLogsMarker ++ sampleDetachedState.log_buffer.buffer ++
              endPreviousLogsMarker),
          ConsoleEvent.setMode ConsoleMode.Owned]) :=
  ⟨by decide, by rfl,
   show_logs_replays_buffer sampleDetachedState OsOutcome.allOk (by decide) (by rfl)⟩

/-- C6: the log buffer is append-only.  `BufferSink::write` appends
exactly the given bytes and returns their full length, `replay` leaves
the buffer untouched while writing it out between the markers, and
`show_logs` (succeeding or not) keeps the state holding the same
buffer. -/
theorem buffer_append_only (sink : BufferSink) (buf out : List Nat)
    (s : TrayConsoleState) (os : OsOutcome) :
    sink.write buf = ({ buffer := sink.buffer ++ buf }, buf.length) ∧
    (sink.replay out).1 = sink ∧
    (sink.replay out).2 =
      out ++ beginPreviousLogsMarker ++ sink.buffer ++ endPreviousLogsMarker ∧
    (s.show_logs os).2.1.log_buffer = s.log_buffer := by
  refine ⟨rfl, rfl, by simp [BufferSink.replay, BufferSink.replayOutput], ?_⟩
  rcases s with ⟨m, a, lb⟩
  rcases os with ⟨od, oc, orp, oa⟩
  cases m <;> cases od <;> cases oc <;> cases orp <;> rfl

/-- C9: when `show_logs` or `hide_logs` returns an error, the state (in
particular its `mode` field) is exactly what it was before the call. -/
theorem ops_error_leaves_state (s : TrayConsoleState) (os : OsOutcome) :
    (∀ e, (s.show_logs os).1 = Except.error e → (s.show_logs os).2.1 = s) ∧
    (∀ e, (s.hide_logs os).1 = Except.error e → (s.hide_logs os).2.1 = s) := by
  rcases s with ⟨m, a, lb⟩
  rcases os with ⟨od, oc, orp, oa⟩
  constructor
  · intro e h
    cases m <;> cases od <;> cases oc <;> cases orp <;>
      first
        | rfl
        | exact absurd h (by simp [TrayConsoleState.show_logs, TrayConsoleState.can_show_logs])
  · intro e h
    cases m <;> cases a <;> cases od <;> cases oa <;>
      first
        | rfl
        | exact absurd h (by simp [TrayConsoleState.hide_logs, TrayConsoleState.can_hide_logs])

/-- Witness for C9: from a detached state with a failing console
allocation, `show_logs` errors and the state is unchanged; from an owned
state with a failing detach, `hide_logs` errors and the state is
unchanged. -/
theorem ops_error_leaves_state_witness :
    ((sampleDetachedState.show_logs
        { detachOk := true, createOk := false, replayOk := true, attachOk := true }).1 =
      Except.error "Failed to allocate dedicated console") ∧
    (sampleDetachedState.show_logs
        { detachOk := true, createOk := false, replayOk := true, attachOk := true }).2.1 =
      sampleDetachedState :=
  ⟨by rfl,
   (ops_error_leaves_state sampleDetachedState
      { detachOk := true, createOk := false, replayOk := true, attachOk := true }).1
     "Failed to allocate dedicated console" (by rfl)⟩

/-- C4 counterexample: calling `delete_tray_icon` when the icon has
already been removed is not treated as success — the failing
`Shell_NotifyIconW(NIM_DELETE, ...)` result is propagated through
`.ok()?` and the function returns an error. -/
theorem delete_tray_icon_counterexample :
    (delete_tray_icon false).1 = Except.error "Shell_NotifyIconW NIM_DELETE failed" ∧
    (delete_tray_icon false).1.isOk = false := by
  exact ⟨rfl, rfl⟩

/-- C4 amended: `delete_tray_icon` simply forwards the result of the OS
delete call: it returns success exactly when `Shell_NotifyIconW`
(NIM_DELETE) reports success, i.e. when the icon was still registered,
and returns the propagated error when the icon had already been
removed; in either case no icon remains registered afterwards. -/
theorem delete_tray_icon_propagates (present : Bool) :
    (delete_tray_icon present).1 =
      (if present then Except.ok ()
       else Except.error "Shell_NotifyIconW NIM_DELETE failed") ∧
    (delete_tray_icon present).2 = false := by
  cases present <;> exact ⟨rfl, rfl⟩

/-- Helper for C7: the stored `TRAY_STATE` after a sequence of
`add_tray_icon` calls is the descriptor of the most recent successful
add, or the initial contents when no add succeeded. -/
lemma runAdds_lastSuccessful (events : List AddEvent) :
    ∀ st : Option MinimalTrayState,
      runAdds st events =
        (match lastSuccessfulAdd events with
         | some e =>
             some { hwnd_bits := e.hwnd, hicon_bits := e.hicon, tip := padTip e.tooltip }
         | none => st) := by
  induction events using List.reverseRecOn with
  | nil => intro st; rfl
  | append_singleton es e ih =>
    intro st
    have hstep : runAdds st (es ++ [e]) = (add_tray_icon (runAdds st es) e).2 := by
      unfold runAdds
      rw [List.foldl_append]
      rfl
    rw [hstep, ih st]
    cases hos : e.osOk with
    | true =>
      have hlast : lastSuccessfulAdd (es ++ [e]) = some e := by
        unfold lastSuccessfulAdd
        rw [List.filter_append]
        simp [hos]
      rw [hlast]
      cases lastSuccessfulAdd es <;> simp [add_tray_icon, hos]
    | false =>
      have hlast : lastSuccessfulAdd (es ++ [e]) = lastSuccessfulAdd es := by
        unfold lastSuccessfulAdd
        rw [List.filter_append]
        simp [hos]
      rw [hlast]
      cases lastSuccessfulAdd es <;> simp [add_tray_icon, hos]

/-- C7: starting from an empty `TRAY_STATE`, after any sequence of
`add_tray_icon` calls, `re_add_tray_icon` errors when no add ever
succeeded, and otherwise issues a registration carrying exactly the icon
handle and padded tooltip bytes of the most recent successful add, under
the same fixed numeric icon ID and callback message. -/
theorem re_add_matches_last_add (events : List AddEvent) (osOk : Bool) :
    (lastSuccessfulAdd events = none →
      re_add_tray_icon (runAdds none events) osOk =
        (none, Except.error "No tray state available to re-add icon")) ∧
    (∀ e, lastSuccessfulAdd events = some e →
      (re_add_tray_icon (runAdds none events) osOk).1 =
        some { hWnd := e.hwnd, uID := ID_TRAYICON, uCallbackMessage := WM_TRAYICON,
               hIcon := e.hicon, szTip := padTip e.tooltip }) := by
  constructor
  · intro h
    rw [runAdds_lastSuccessful events none, h]
    rfl
  · intro e h
    rw [runAdds_lastSuccessful events none, h]
    rfl

/-- Sample add sequence for the C7 witness: two successful adds followed
by a failed one; the second add is the most recent successful one. -/
def sampleAdds : List AddEvent :=
  [{ hwnd := 100, hicon := 200, tooltip := [65, 66], osOk := true },
   { hwnd := 100, hicon := 300, tooltip := [67], osOk := true },
   { hwnd := 100, hicon := 400, tooltip := [68], osOk := false }]

/-- Witness for C7 at the sample add sequence. -/
theorem re_add_matches_last_add_witness :
    lastSuccessfulAdd sampleAdds =
      some { hwnd := 100, hicon := 300, tooltip := [67], osOk := true } ∧
    (re_add_tray_icon (runAdds none sampleAdds) true).1 =
      some { hWnd := 100, uID := ID_TRAYICON, uCallbackMessage := WM_TRAYICON,
             hIcon := 300, szTip := padTip [67] } :=
  ⟨by rfl,
   (re_add_matches_last_add sampleAdds true).2
     { hwnd := 100, hicon := 300, tooltip := [67], osOk := true } (by rfl)⟩

/-- Helper for C3: the walked menu is non-empty as soon as some item
passes `GetMenuItemInfoW`. -/
lemma walk_menu_ne_nil : ∀ menu : List MenuItem,
    (∃ item ∈ menu, item.infoOk = true) → walk_menu menu ≠ [] := by
  intro menu
  induction menu with
  | nil =>
    rintro ⟨x, hx, _⟩
    exact absurd hx (List.not_mem_nil x)
  | cons item rest ih =>
    rintro ⟨x, hx, hxok⟩
    rcases item with ⟨iOk, iSep, lab, wid, va, vw, sub⟩
    cases iOk with
    | true => cases iSep <;> simp [walk_menu]
    | false =>
      rcases List.mem_cons.mp hx with hxe | hxr
      · subst hxe
        simp [MenuItem.infoOk] at hxok
      · have hrest := ih ⟨x, hxr, hxok⟩
        simpa [walk_menu] using hrest

/-- Helper for C3: shape of every top-level entry produced by
`walk_menu`: separators carry the fixed placeholder label and the empty
verb; non-separators carry the label the menu reported. -/
lemma walk_menu_shape : ∀ menu : List MenuItem,
    (∀ item ∈ menu, item.infoOk = true → item.isSeparator = false → item.label ≠ "") →
    ∀ e ∈ walk_menu menu,
      (e.is_separator = true → e.label = "----------------" ∧ e.verb = "") ∧
      (e.is_separator = false → e.label ≠ "") := by
  intro menu
  induction menu with
  | nil =>
    intro _ e he
    simp [walk_menu] at he
  | cons item rest ih =>
    intro hlab e he
    rcases item with ⟨iOk, iSep, lab, wid, va, vw, sub⟩
    have hrest : ∀ item ∈ rest, item.infoOk = true → item.isSeparator = false →
        item.label ≠ "" :=
      fun i hi => hlab i (List.mem_cons_of_mem _ hi)
    cases iOk with
    | false =>
      rw [show walk_menu (MenuItem.mk false iSep lab wid va vw sub :: rest) =
            walk_menu rest from by simp [walk_menu]] at he
      exact ih hrest e he
    | true =>
      cases iSep with
      | true =>
        rw [show walk_menu (MenuItem.mk true true lab wid va vw sub :: rest) =
              separatorEntry :: walk_menu rest from by simp [walk_menu]] at he
        rcases List.mem_cons.mp he with rfl | hr
        · constructor
          · exact fun _ => ⟨rfl, rfl⟩
          · intro hcontra
            simp [separatorEntry, ContextMenuEntry.is_separator] at hcontra
        · exact ih hrest e hr
      | false =>
        rw [show walk_menu (MenuItem.mk true false lab wid va vw sub :: rest) =
              ContextMenuEntry.mk wid lab (get_verb wid va vw) (walk_menu sub) false
                :: walk_menu rest from by simp [walk_menu]] at he
        rcases List.mem_cons.mp he with rfl | hr
        · constructor
          · intro hcontra
            simp [ContextMenuEntry.is_separator] at hcontra
          · intro _
            have hl := hlab (MenuItem.mk true false lab wid va vw sub)
              (List.mem_cons_self _ _) rfl rfl
            simpa [MenuItem.label, ContextMenuEntry.label] using hl
        · exact ih hrest e hr

/-- Shell oracle in which every OS step succeeds and the populated menu
contains a single separator item. -/
def sampleSeparatorOracle : ShellOracle :=
  { canonicalizeOk := true, comInitOk := true, parseOk := true, pidlNull := false,
    bindOk := true, uiObjectOk := true, createMenuOk := true, queryOk := true,
    destroyOk := true, menu := [MenuItem.mk true true "" 0 none none []] }

/-- C3 counterexample: for a menu holding one separator item,
`get_context_menu_entries` returns the separator entry with the fixed
sixteen-dash placeholder label, which is not empty — so the claim that
every separator entry has an empty label fails. -/
theorem context_menu_separator_label_counterexample :
    get_context_menu_entries sampleSeparatorOracle = Except.ok [separatorEntry] ∧
    separatorEntry.is_separator = true ∧
    separatorEntry.label = "----------------" ∧
    (separatorEntry.label == "") = false := by
  refine ⟨?_, rfl, rfl, by decide⟩
  simp [get_context_menu_entries, sampleSeparatorOracle, walk_menu]

/-- C3 amended: when `get_context_menu_entries` succeeds on a menu where
at least one item passes `GetMenuItemInfoW` and every reported
non-separator item has a non-empty label, the returned list is non-empty,
every separator entry carries the fixed placeholder label
`"----------------"` and an empty verb, and every non-separator entry has
a non-empty label. -/
theorem context_menu_entries_shape (os : ShellOracle) (entries : List ContextMenuEntry)
    (hok : get_context_menu_entries os = Except.ok entries)
    (hsome : ∃ item ∈ os.menu, item.infoOk = true)
    (hlabels : ∀ item ∈ os.menu, item.infoOk = true → item.isSeparator = false →
      item.label ≠ "") :
    entries ≠ [] ∧
    ∀ e ∈ entries,
      (e.is_separator = true → e.label = "----------------" ∧ e.verb = "") ∧
      (e.is_separator = false → e.label ≠ "") := by
  have hentries : entries = walk_menu os.menu := by
    unfold get_context_menu_entries at hok
    split at hok
    · exact absurd hok (by simp)
    · split at hok
      · exact absurd hok (by simp)
      · split at hok
        · exact absurd hok (by simp)
        · split at hok
          · exact absurd hok (by simp)
          · split at hok
            · exact absurd hok (by simp)
            · split at hok
              · exact absurd hok (by simp)
              · split at hok
                · exact absurd hok (by simp)
                · split at hok
                  · exact absurd hok (by simp)
                  · split at hok
                    · exact absurd hok (by simp)
                    · exact (Except.ok.injEq _ _ ▸ hok).symm
  subst hentries
  exact ⟨walk_menu_ne_nil os.menu hsome, walk_menu_shape os.menu hlabels⟩

/-- Shell oracle in which every OS step succeeds and the menu holds one
ordinary item labelled Open with ANSI verb open. -/
def sampleOpenOracle : ShellOracle :=
  { canonicalizeOk := true, comInitOk := true, parseOk := true, pidlNull := false,
    bindOk := true, uiObjectOk := true, createMenuOk := true, queryOk := true,
    destroyOk := true, menu := [MenuItem.mk true false "Open" 1 (some "open") none []] }

/-- Witness for the amended C3 at a one-item menu. -/
theorem context_menu_entries_shape_witness :
    get_context_menu_entries sampleOpenOracle =
      Except.ok [ContextMenuEntry.mk 1 "Open" "open" [] false] ∧
    (∃ item ∈ sampleOpenOracle.menu, item.infoOk = true) ∧
    (∀ item ∈ sampleOpenOracle.menu, item.infoOk = true → item.isSeparator = false →
      item.label ≠ "") ∧
    ([ContextMenuEntry.mk 1 "Open" "open" [] false] ≠
      ([] : List ContextMenuEntry) ∧
    ∀ e ∈ [ContextMenuEntry.mk 1 "Open" "open" [] false],
      (e.is_separator = true → e.label = "----------------" ∧ e.verb = "") ∧
      (e.is_separator = false → e.label ≠ "")) :=
  ⟨by simp [get_context_menu_entries, sampleOpenOracle, walk_menu, get_verb],
   ⟨MenuItem.mk true false "Open" 1 (some "open") none [], List.mem_cons_self _ _, rfl⟩,
   by
     rintro item hitem
     rcases List.mem_cons.mp hitem with rfl | habs
     · intro _ _
       simp [MenuItem.label]
     · exact absurd habs (List.not_mem_nil _),
   context_menu_entries_shape sampleOpenOracle
     [ContextMenuEntry.mk 1 "Open" "open" [] false]
     (by simp [get_context_menu_entries, sampleOpenOracle, walk_menu, get_verb])
     ⟨MenuItem.mk true false "Open" 1 (some "open") none [], List.mem_cons_self _ _, rfl⟩
     (by
       rintro item hitem
       rcases List.mem_cons.mp hitem with rfl | habs
       · intro _ _
         simp [MenuItem.label]
       · exact absurd habs (List.not_mem_nil _))⟩

/-- C8: for every message, sub-code, configuration, per-window state and
combination of OS call outcomes, `window_proc` returns the result code
determined by the message arm alone — `0` for every handled message,
`-1` only when the creation message finds no configuration, and the
`DefWindowProcW` result otherwise.  No failure of `show_logs`,
`hide_logs`, menu construction, tray deletion or tray re-registration
changes the returned code: those failures surface only in the logged
error list. -/
theorem window_proc_always_returns (config : Option TrayConsoleConfig) (os : WindowOs)
    (message lparamLow : Nat) (slot : Option TrayConsoleState) :
    (window_proc config os message lparamLow slot).lresult =
      (if message = WM_CREATE then (if config.isSome then 0 else -1)
       else if message = WM_USER_TRAY_CALLBACK then 0
       else if message = os.taskbarCreatedMsg then 0
       else if message = WM_CLOSE then 0
       else if message = WM_DESTROY then 0
       else os.defWindowProcResult) := by
  unfold window_proc
  by_cases h1 : message = WM_CREATE
  · rw [if_pos h1, if_pos h1]
    cases config <;> rfl
  · rw [if_neg h1, if_neg h1]
    by_cases h2 : message = WM_USER_TRAY_CALLBACK
    · rw [if_pos h2, if_pos h2]
      by_cases hb : lparamLow = WM_RBUTTONUP ∨ lparamLow = WM_CONTEXTMENU
      · rw [if_pos hb]
        cases slot with
        | none => rfl
        | some st => dsimp only
      · rw [if_neg hb]
        by_cases hdb : lparamLow = WM_LBUTTONDBLCLK
        · rw [if_pos hdb]
          cases slot with
          | none => rfl
          | some st =>
            dsimp only
            rcases hsl : st.show_logs os.consoleOs with ⟨res, s2, tr⟩
            cases res <;> rfl
        · rw [if_neg hdb]
    · rw [if_neg h2, if_neg h2]
      by_cases h3 : message = os.taskbarCreatedMsg
      · rw [if_pos h3, if_pos h3]
        by_cases hr : os.reAddOk = true
        · rw [if_pos hr]
        · rw [if_neg hr]
      · rw [if_neg h3, if_neg h3]
        by_cases h4 : message = WM_CLOSE
        · rw [if_pos h4, if_pos h4]
        · rw [if_neg h4, if_neg h4]
          by_cases h5 : message = WM_DESTROY
          · rw [if_pos h5, if_pos h5]
          · rw [if_neg h5, if_neg h5]

/-! ### Helper lemmas for the drive letter pattern -/

/-- ASCII letters are neither whitespace nor comma nor semicolon. -/
lemma alpha_not_skippable (c : Char) (h : is_ascii_alphabetic c = true) :
    skippable c = false := by
  have hn : (0x41 ≤ c.toNat ∧ c.toNat ≤ 0x5A) ∨ (0x61 ≤ c.toNat ∧ c.toNat ≤ 0x7A) := by
    simpa [is_ascii_alphabetic, Bool.or_eq_true, Bool.and_eq_true,
      decide_eq_true_eq] using h
  have hcomma : (c == ',') = false := by
    cases hb : c == ','
    · rfl
    · exfalso
      have hc : c = ',' := beq_iff_eq.mp hb
      subst hc
      have h44 : (',' : Char).toNat = 44 := rfl
      rw [h44] at hn
      omega
  have hsemi : (c == ';') = false := by
    cases hb : c == ';'
    · rfl
    · exfalso
      have hc : c = ';' := beq_iff_eq.mp hb
      subst hc
      have h59 : (';' : Char).toNat = 59 := rfl
      rw [h59] at hn
      omega
  have hws : rust_is_whitespace c = false := by
    cases hb : rust_is_whitespace c
    · rfl
    · exfalso
      have hw := hb
      simp only [rust_is_whitespace, Bool.or_eq_true, Bool.and_eq_true,
        decide_eq_true_eq] at hw
      omega
  unfold skippable
  rw [hws, hcomma, hsemi]
  rfl

/-- Whitespace characters are separators. -/
lemma whitespace_skippable (c : Char) (h : rust_is_whitespace c = true) :
    skippable c = true := by
  unfold skippable
  rw [h]
  rfl

/-- Separator characters are never ASCII letters. -/
lemma skippable_not_alpha (c : Char) (h : skippable c = true) :
    is_ascii_alphabetic c = false := by
  cases ha : is_ascii_alphabetic c
  · rfl
  · rw [alpha_not_skippable c ha] at h
    exact absurd h (by simp)

/-- The character loop errors exactly when some non-separator character
is not an ASCII letter. -/
lemma drive_letters_loop_error_iff : ∀ l : List Char,
    (∃ e, drive_letters_loop l = Except.error e) ↔
      ∃ c ∈ l, skippable c = false ∧ is_ascii_alphabetic c = false := by
  intro l
  induction l with
  | nil =>
    constructor
    · rintro ⟨e, he⟩
      exact absurd he (by simp [drive_letters_loop])
    · rintro ⟨c, hc, _⟩
      exact absurd hc (List.not_mem_nil c)
  | cons c rest ih =>
    by_cases hs : skippable c = true
    · have hstep : drive_letters_loop (c :: rest) = drive_letters_loop rest := by
        simp [drive_letters_loop, hs]
      constructor
      · rintro ⟨e, he⟩
        rw [hstep] at he
        obtain ⟨x, hx, hxp⟩ := ih.mp ⟨e, he⟩
        exact ⟨x, List.mem_cons_of_mem _ hx, hxp⟩
      · rintro ⟨x, hx, hxs, hxa⟩
        rcases List.mem_cons.mp hx with rfl | hxr
        · rw [hs] at hxs
          exact absurd hxs (by simp)
        · obtain ⟨e, he⟩ := ih.mpr ⟨x, hxr, hxs, hxa⟩
          exact ⟨e, by rw [hstep]; exact he⟩
    · have hsf : skippable c = false := by
        revert hs
        cases skippable c <;> simp
      by_cases ha : is_ascii_alphabetic c = true
      · have hstep : drive_letters_loop (c :: rest) =
            (match drive_letters_loop rest with
             | Except.ok l2 => Except.ok (to_ascii_uppercase c :: l2)
             | Except.error e => Except.error e) := by
          simp [drive_letters_loop, hsf, ha]
        constructor
        · rintro ⟨e, he⟩
          rw [hstep] at he
          cases hrest : drive_letters_loop rest with
          | ok l2 =>
            rw [hrest] at he
            exact absurd he (by simp)
          | error e2 =>
            obtain ⟨x, hx, hxp⟩ := ih.mp ⟨e2, hrest⟩
            exact ⟨x, List.mem_cons_of_mem _ hx, hxp⟩
        · rintro ⟨x, hx, hxs, hxa⟩
          rcases List.mem_cons.mp hx with rfl | hxr
          · rw [ha] at hxa
            exact absurd hxa (by simp)
          · obtain ⟨e, he⟩ := ih.mpr ⟨x, hxr, hxs, hxa⟩
            exact ⟨e, by rw [hstep, he]⟩
      · have haf : is_ascii_alphabetic c = false := by
          revert ha
          cases is_ascii_alphabetic c <;> simp
        constructor
        · rintro _
          exact ⟨c, List.mem_cons_self _ _, hsf, haf⟩
        · rintro _
          exact ⟨"Invalid drive letter character", by simp [drive_letters_loop, hsf, haf]⟩

/-- On success the loop certifies every non-separator character as a
letter and returns the uppercased non-separator characters in order. -/
lemma drive_letters_loop_ok : ∀ (l : List Char) (r : List Char),
    drive_letters_loop l = Except.ok r →
      (∀ c ∈ l, skippable c = false → is_ascii_alphabetic c = true) ∧
      r = (l.filter (fun c => ! skippable c)).map to_ascii_uppercase := by
  intro l
  induction l with
  | nil =>
    intro r h
    have hr : r = [] := by
      have h2 := h
      simp [drive_letters_loop] at h2
      exact h2
    subst hr
    exact ⟨fun c hc => absurd hc (List.not_mem_nil c), by simp⟩
  | cons c rest ih =>
    intro r h
    by_cases hs : skippable c = true
    · rw [show drive_letters_loop (c :: rest) = drive_letters_loop rest from by
        simp [drive_letters_loop, hs]] at h
      obtain ⟨hall, hr⟩ := ih r h
      constructor
      · rintro x hx hxs
        rcases List.mem_cons.mp hx with rfl | hxr
        · rw [hs] at hxs
          exact absurd hxs (by simp)
        · exact hall x hxr hxs
      · rw [hr]
        simp [List.filter_cons, hs]
    · have hsf : skippable c = false := by
        revert hs
        cases skippable c <;> simp
      by_cases ha : is_ascii_alphabetic c = true
      · cases hrest : drive_letters_loop rest with
        | error e =>
          rw [show drive_letters_loop (c :: rest) = Except.error e from by
            simp [drive_letters_loop, hsf, ha, hrest]] at h
          exact absurd h (by simp)
        | ok l2 =>
          rw [show drive_letters_loop (c :: rest) =
              Except.ok (to_ascii_uppercase c :: l2) from by
            simp [drive_letters_loop, hsf, ha, hrest]] at h
          simp only [Except.ok.injEq] at h
          obtain ⟨hall, hl2⟩ := ih l2 hrest
          subst h
          constructor
          · rintro x hx hxs
            rcases List.mem_cons.mp hx with rfl | hxr
            · exact ha
            · exact hall x hxr hxs
          · rw [hl2]
            simp [List.filter_cons, hsf]
      · have haf : is_ascii_alphabetic c = false := by
          revert ha
          cases is_ascii_alphabetic c <;> simp
        rw [show drive_letters_loop (c :: rest) =
            Except.error "Invalid drive letter character" from by
          simp [drive_letters_loop, hsf, haf]] at h
        exact absurd h (by simp)

/-- `rust_trim` only removes whitespace from the two ends. -/
lemma rust_trim_decomposition (l : List Char) :
    ∃ a b, l = a ++ rust_trim l ++ b ∧
      (∀ c ∈ a, rust_is_whitespace c = true) ∧
      (∀ c ∈ b, rust_is_whitespace c = true) := by
  refine ⟨l.takeWhile rust_is_whitespace,
    ((l.dropWhile rust_is_whitespace).reverse.takeWhile rust_is_whitespace).reverse,
    ?_, ?_, ?_⟩
  · have h1 : l.takeWhile rust_is_whitespace ++ l.dropWhile rust_is_whitespace = l :=
      List.takeWhile_append_dropWhile rust_is_whitespace l
    have h2 : (l.dropWhile rust_is_whitespace).reverse.takeWhile rust_is_whitespace ++
        (l.dropWhile rust_is_whitespace).reverse.dropWhile rust_is_whitespace =
        (l.dropWhile rust_is_whitespace).reverse :=
      List.takeWhile_append_dropWhile rust_is_whitespace
        (l.dropWhile rust_is_whitespace).reverse
    unfold rust_trim
    calc l = l.takeWhile rust_is_whitespace ++ l.dropWhile rust_is_whitespace := h1.symm
      _ = l.takeWhile rust_is_whitespace ++
            ((l.dropWhile rust_is_whitespace).reverse).reverse := by
          rw [List.reverse_reverse]
      _ = l.takeWhile rust_is_whitespace ++
            ((l.dropWhile rust_is_whitespace).reverse.takeWhile rust_is_whitespace ++
             (l.dropWhile rust_is_whitespace).reverse.dropWhile rust_is_whitespace).reverse := by
          rw [h2]
      _ = l.takeWhile rust_is_whitespace ++
            (((l.dropWhile rust_is_whitespace).reverse.dropWhile rust_is_whitespace).reverse ++
             ((l.dropWhile rust_is_whitespace).reverse.takeWhile rust_is_whitespace).reverse) := by
          rw [List.reverse_append]
      _ = l.takeWhile rust_is_whitespace ++
            ((l.dropWhile rust_is_whitespace).reverse.dropWhile rust_is_whitespace).reverse ++
            ((l.dropWhile rust_is_whitespace).reverse.takeWhile rust_is_whitespace).reverse := by
          rw [List.append_assoc]
  · intro c hc
    exact List.mem_takeWhile_imp hc
  · intro c hc
    rw [List.mem_reverse] at hc
    exact List.mem_takeWhile_imp hc

/-- Trimming does not change the ASCII letters of a string. -/
lemma filter_alpha_trim (l : List Char) :
    (rust_trim l).filter is_ascii_alphabetic = l.filter is_ascii_alphabetic := by
  obtain ⟨a, b, hdec, hwa, hwb⟩ := rust_trim_decomposition l
  have hfa : a.filter is_ascii_alphabetic = [] := by
    rw [List.filter_eq_nil_iff]
    intro c hc
    simp [skippable_not_alpha c (whitespace_skippable c (hwa c hc))]
  have hfb : b.filter is_ascii_alphabetic = [] := by
    rw [List.filter_eq_nil_iff]
    intro c hc
    simp [skippable_not_alpha c (whitespace_skippable c (hwb c hc))]
  conv_rhs => rw [hdec]
  rw [List.filter_append, List.filter_append, hfa, hfb]
  simp

/-- C10: for every pattern whose trimmed text is not the wildcard,
`into_drive_letters` errors exactly when some character other than
whitespace, comma or semicolon is not an ASCII letter or when no ASCII
letter is present, and on success it returns the pattern's ASCII letters
in their original order, uppercased. -/
theorem into_drive_letters_spec (oracle : Except String (List Char))
    (p : DriveLetterPattern) (hstar : rust_trim p.text ≠ ['*']) :
    ((∃ e, p.into_drive_letters oracle = Except.error e) ↔
      ((∃ c ∈ p.text, skippable c = false ∧ is_ascii_alphabetic c = false) ∨
       (∀ c ∈ p.text, is_ascii_alphabetic c = false))) ∧
    (∀ letters, p.into_drive_letters oracle = Except.ok letters →
      letters = (p.text.filter is_ascii_alphabetic).map to_ascii_uppercase) := by
  obtain ⟨a, b, hdec, hwa, hwb⟩ := rust_trim_decomposition p.text
  set T := rust_trim p.text with hT
  have hmemT : ∀ c ∈ T, c ∈ p.text := by
    intro c hc
    rw [hdec]
    exact List.mem_append.mpr (Or.inl (List.mem_append.mpr (Or.inr hc)))
  have hbad_iff : (∃ c ∈ T, skippable c = false ∧ is_ascii_alphabetic c = false) ↔
      (∃ c ∈ p.text, skippable c = false ∧ is_ascii_alphabetic c = false) := by
    constructor
    · rintro ⟨c, hc, hp⟩
      exact ⟨c, hmemT c hc, hp⟩
    · rintro ⟨c, hc, hcs, hca⟩
      rw [hdec] at hc
      rcases List.mem_append.mp hc with hcc | hcb
      · rcases List.mem_append.mp hcc with hca2 | hct
        · exact absurd hcs (by rw [whitespace_skippable c (hwa c hca2)]; simp)
        · exact ⟨c, hct, hcs, hca⟩
      · exact absurd hcs (by rw [whitespace_skippable c (hwb c hcb)]; simp)
  have hnoalpha_iff : (∀ c ∈ T, is_ascii_alphabetic c = false) ↔
      (∀ c ∈ p.text, is_ascii_alphabetic c = false) := by
    constructor
    · intro hall c hc
      rw [hdec] at hc
      rcases List.mem_append.mp hc with hcc | hcb
      · rcases List.mem_append.mp hcc with hca2 | hct
        · exact skippable_not_alpha c (whitespace_skippable c (hwa c hca2))
        · exact hall c hct
      · exact skippable_not_alpha c (whitespace_skippable c (hwb c hcb))
    · intro hall c hc
      exact hall c (hmemT c hc)
  cases hloop : drive_letters_loop T with
  | error e =>
    have hrun : p.into_drive_letters oracle = Except.error e := by
      simp only [DriveLetterPattern.into_drive_letters]
      rw [← hT, if_neg hstar, hloop]
    constructor
    · constructor
      · rintro _
        exact Or.inl (hbad_iff.mp ((drive_letters_loop_error_iff T).mp ⟨e, hloop⟩))
      · rintro _
        exact ⟨e, hrun⟩
    · intro letters hl
      rw [hrun] at hl
      exact absurd hl (by simp)
  | ok rtn =>
    obtain ⟨hall, hrtn⟩ := drive_letters_loop_ok T rtn hloop
    by_cases hempty : rtn = []
    · have hrun : p.into_drive_letters oracle = Except.error "No drive letters found" := by
        simp only [DriveLetterPattern.into_drive_letters]
        rw [← hT, if_neg hstar, hloop]
        simp [hempty]
      have hallskip : ∀ c ∈ T, skippable c = true := by
        intro c hc
        cases hskc : skippable c with
        | true => rfl
        | false =>
          exfalso
          have hcfil : c ∈ T.filter (fun x => ! skippable x) :=
            List.mem_filter.mpr ⟨hc, by rw [hskc]; rfl⟩
          rw [hempty] at hrtn
          have hfil : T.filter (fun x => ! skippable x) = [] :=
            List.map_eq_nil_iff.mp hrtn.symm
          rw [hfil] at hcfil
          exact absurd hcfil (List.not_mem_nil c)
      constructor
      · constructor
        · rintro _
          right
          apply hnoalpha_iff.mp
          intro c hc
          exact skippable_not_alpha c (hallskip c hc)
        · rintro _
          exact ⟨"No drive letters found", hrun⟩
      · intro letters hl
        rw [hrun] at hl
        exact absurd hl (by simp)
    · have hrun : p.into_drive_letters oracle = Except.ok rtn := by
        simp only [DriveLetterPattern.into_drive_letters]
        rw [← hT, if_neg hstar, hloop]
        simp [hempty]
      constructor
      · constructor
        · rintro ⟨e, he⟩
          rw [hrun] at he
          exact absurd he (by simp)
        · rintro (hbad | hnone)
          · exfalso
            obtain ⟨e, he⟩ := (drive_letters_loop_error_iff T).mpr (hbad_iff.mpr hbad)
            rw [hloop] at he
            exact absurd he (by simp)
          · exfalso
            apply hempty
            rw [hrtn]
            have hfilnil : T.filter (fun x => ! skippable x) = [] := by
              rw [List.filter_eq_nil_iff]
              intro c hc
              have hna := hnoalpha_iff.mpr hnone c hc
              cases hskc : skippable c with
              | true => simp [hskc]
              | false => exact absurd (hall c hc hskc) (by simp [hna])
            rw [hfilnil]
            rfl
      · intro letters hl
        rw [hrun] at hl
        simp only [Except.ok.injEq] at hl
        subst hl
        rw [hrtn]
        have hfeq : T.filter (fun x => ! skippable x) = T.filter is_ascii_alphabetic := by
          apply List.filter_congr
          intro c hc
          cases hskc : skippable c with
          | false => simp [hall c hc hskc]
          | true => simp [skippable_not_alpha c hskc]
        rw [hfeq, hT, filter_alpha_trim]

/-- Witness for C10 at the pattern with text `C,d`: no error, and the
result is the uppercased letters `C` and `D`. -/
theorem into_drive_letters_spec_witness :
    rust_trim (DriveLetterPattern.mk ['C', ',', 'd']).text ≠ ['*'] ∧
    (((∃ e, (DriveLetterPattern.mk ['C', ',', 'd']).into_drive_letters (Except.ok []) =
        Except.error e) ↔
      ((∃ c ∈ (DriveLetterPattern.mk ['C', ',', 'd']).text,
          skippable c = false ∧ is_ascii_alphabetic c = false) ∨
       (∀ c ∈ (DriveLetterPattern.mk ['C', ',', 'd']).text,
          is_ascii_alphabetic c = false))) ∧
    (∀ letters,
      (DriveLetterPattern.mk ['C', ',', 'd']).into_drive_letters (Except.ok []) =
        Except.ok letters →
      letters = ((DriveLetterPattern.mk ['C', ',', 'd']).text.filter
        is_ascii_alphabetic).map to_ascii_uppercase)) :=
  ⟨by decide,
   into_drive_letters_spec (Except.ok []) (DriveLetterPattern.mk ['C', ',', 'd'])
     (by decide)⟩

end TeamyWindows
